import Mathlib

/-!
# MapLooper-faust: the control task of `app_main`

Shallow embedding of the task body that `app_main` (src/main/main.cpp) hands
to `xTaskCreatePinnedToCore`.  The task is straight-line set-up code followed
by an endless `for (;;)` loop; every statement of interest is a call into the
MapLooper / libmapper / Faust APIs.  The embedding runs the task in a writer
style state monad that logs each API call in program order, so that the
properties of the task become properties of its call trace.  The platform
bring-up that precedes the task (NVS, WiFi access point, audio codec) makes
no such call and is left out.

Conventions
* C `float` / `double` values are rationals (`ℚ`).  The literals of the task
  (0.0, 1.0, 50.0f, 3000.0f) are exactly representable; the one computed
  value, `float val = esp_random() / 4294967296.0`, is rounded to binary32
  explicitly (`randomUnit`).
* `esp_random()` (a `uint32_t`) and `esp_timer_get_time()` (an `int64_t`) are
  inputs of a loop iteration.
* Handles (`MapLooper::Loop*`, `mpr_sig`) are identified by the name the
  object was created with.
-/

namespace MapLooperFaust

/-! ## Handles -/

/-- Handle of type `MapLooper::Loop*`, as returned by `createLoop(name)`. -/
structure Loop where
  name : String
  deriving DecidableEq, Repr

/-- Handle of type `mpr_sig`: either one of the three endpoints a loop hands
out (`getInputSignal`, `getOutputSignal`, `getRecordSignal`) or a signal made
by `mpr_sig_new` under the given name. -/
inductive Sig where
  | input (loop : Loop)
  | output (loop : Loop)
  | record (loop : Loop)
  | named (name : String)
  deriving DecidableEq, Repr

/-- The three `mpr_sig_handler` lambdas defined in the task. -/
inductive Handler where
  | sigGainHandler
  | sigResonanceHandler
  | sigCutoffHandler
  deriving DecidableEq, Repr

/-! ## API calls -/

/-- One call made by the task, with the argument values it is made with. -/
inductive Call where
  | newFaust (SR BS : Int)
  | createLoop (name : String)
  | setLength (loop : Loop) (beats : ℚ)
  | setPulsesPerQuarterNote (loop : Loop) (ppqn : Int)
  | mpr_sig_new (name : String) (sigMin sigMax : ℚ) (handler : Handler)
  | mpr_obj_set_prop (sig : Sig)
  | mpr_map_new (src dst : Sig)
  | mpr_obj_push (src dst : Sig)
  | mpr_sig_set_value (sig : Sig) (value : ℚ)
  | faustStart
  | update (arg : Int)
  | vTaskDelay (ticks : Nat)
  deriving DecidableEq, Repr

/-- The task as a computation that appends the calls it makes to a log. -/
abbrev TaskM := StateM (List Call)

/-- Log one call. -/
def call (c : Call) : TaskM Unit :=
  modify fun log => log ++ [c]

/-- Run a task from an empty log and return the calls it made, in order. -/
def trace {α : Type} (t : TaskM α) : List Call :=
  (t.run []).2

/-- Models `mapLooper.createLoop(name)`: logs the call, yields the handle. -/
def createLoop (name : String) : TaskM Loop := do
  call (.createLoop name)
  return ⟨name⟩

/-- Models `mpr_sig_new(dev, MPR_DIR_IN, name, 1, MPR_FLT, 0, &sigMin, &sigMax,
0, handler, MPR_SIG_UPDATE)`: the range is read through the two pointers at
the time of the call. -/
def mpr_sig_new (name : String) (sigMin sigMax : ℚ) (handler : Handler) : TaskM Sig := do
  call (.mpr_sig_new name sigMin sigMax handler)
  return .named name

/-- Models `mpr_map_new(1, &src, 1, &dst)`: logs the call, yields the map,
which is identified by its two ends. -/
def mpr_map_new (src dst : Sig) : TaskM (Sig × Sig) := do
  call (.mpr_map_new src dst)
  return (src, dst)

/-- Models `mpr_obj_push(map)` on a map object. -/
def mpr_obj_push (map : Sig × Sig) : TaskM Unit :=
  call (.mpr_obj_push map.1 map.2)

/-- Models the `double` expression `esp_random() / 4294967296.0` for the
random word `r`: the conversion of a `uint32_t` to `double` and the division
by `2 ^ 32` are both exact. -/
def randomQuotient (r : Nat) : ℚ :=
  (r : ℚ) / 4294967296

/-- The number of low-order bits `n` has beyond `p` significant bits: the
least `s` with `n / 2 ^ s < 2 ^ p`, searched up to `width` (enough for every
`n < 2 ^ (p + width)`). -/
def excessBits (p : Nat) : Nat → Nat → Nat
  | 0, _ => 0
  | width + 1, n => if n < 2 ^ p then 0 else excessBits p width (n / 2) + 1

/-- Rounds `n` to a multiple of `2 ^ shift`, to nearest, ties to the multiple
with an even quotient (round-to-nearest-even, the IEEE 754 default). -/
def roundAtShift (shift n : Nat) : Nat :=
  let q := n / 2 ^ shift
  let rem := n % 2 ^ shift
  if 2 * rem < 2 ^ shift then q * 2 ^ shift
  else if 2 * rem > 2 ^ shift then (q + 1) * 2 ^ shift
  else if q % 2 = 0 then q * 2 ^ shift
  else (q + 1) * 2 ^ shift

/-- Rounds the 32-bit word `n` to `p` significant bits, to nearest, ties to
even. -/
def roundToBits (p n : Nat) : Nat :=
  roundAtShift (excessBits p 32 n) n

/-- Models `float val = esp_random() / 4294967296.0` for the random word `r`:
the exact `double` quotient `r / 2 ^ 32` is narrowed to binary32, which keeps
24 significant bits of `r` (the exponent is in range, the quotient being 0 or
between `2 ^ (-32)` and 1). -/
def randomUnit (r : Nat) : ℚ :=
  (roundToBits 24 r : ℚ) / 4294967296

/-! ## The task -/

/-- Local variables of the task that are live when the main loop starts
(`recValue` is the C++ variable `rec`). -/
structure Locals where
  gainLoop : Loop
  cutoffLoop : Loop
  resonanceLoop : Loop
  sigGain : Sig
  sigResonance : Sig
  sigCutoff : Sig
  recValue : ℚ
  deriving DecidableEq, Repr

/-- Lines 60-155 of main.cpp: everything the task does before `for (;;)`. -/
def taskSetup : TaskM Locals := do
  let SR : Int := 48000
  let BS : Int := 64
  call (.newFaust SR BS)
  -- Initialize MapLooper
  let gainLoop ← createLoop "gainLoop"
  let cutoffLoop ← createLoop "cutoffLoop"
  let resonanceLoop ← createLoop "resonanceLoop"
  call (.setLength gainLoop 1)
  call (.setLength cutoffLoop 1)
  call (.setLength resonanceLoop 1)
  call (.setPulsesPerQuarterNote gainLoop 48)
  call (.setPulsesPerQuarterNote cutoffLoop 48)
  call (.setPulsesPerQuarterNote resonanceLoop 48)
  -- Gain signal
  let mut sigMin : ℚ := 0
  let mut sigMax : ℚ := 1
  let sigGain ← mpr_sig_new "faust/gain" sigMin sigMax .sigGainHandler
  call (.mpr_obj_set_prop sigGain)
  -- Resonance signal
  sigMin := 0
  sigMax := 1
  let sigResonance ← mpr_sig_new "faust/resonance" sigMin sigMax .sigResonanceHandler
  call (.mpr_obj_set_prop sigResonance)
  -- Cutoff signal
  sigMin := 50
  sigMax := 3000
  let sigCutoff ← mpr_sig_new "faust/cutoffFrequency" sigMin sigMax .sigCutoffHandler
  call (.mpr_obj_set_prop sigCutoff)
  -- Map output of gainLoop to gain signal
  let mut src : Sig := .output gainLoop
  mpr_obj_push (← mpr_map_new src sigGain)
  -- Map output of cutoffLoop to cutoff signal
  src := .output cutoffLoop
  mpr_obj_push (← mpr_map_new src sigCutoff)
  -- Map output of resonanceLoop to resonance signal
  src := .output resonanceLoop
  mpr_obj_push (← mpr_map_new src sigResonance)
  -- Enable recording
  let recValue : ℚ := 1
  call (.mpr_sig_set_value (.record gainLoop) recValue)
  call (.mpr_sig_set_value (.record cutoffLoop) recValue)
  call (.mpr_sig_set_value (.record resonanceLoop) recValue)
  -- Start audio
  call .faustStart
  return { gainLoop, cutoffLoop, resonanceLoop, sigGain, sigResonance, sigCutoff, recValue }

/-- What one pass through the `for (;;)` body reads from its environment:
the three successive results of `esp_random()` and the result of
`esp_timer_get_time()`. -/
structure IterEnv where
  random1 : Nat
  random2 : Nat
  random3 : Nat
  timer : Int
  deriving DecidableEq, Repr

/-- Lines 157-176 of main.cpp: one pass through the body of `for (;;)`. -/
def loopIteration (env : IterEnv) (vars : Locals) : TaskM Locals := do
  let mut recValue := vars.recValue
  let mut val : ℚ := randomUnit env.random1
  call (.mpr_sig_set_value (.input vars.gainLoop) val)
  val := randomUnit env.random2
  call (.mpr_sig_set_value (.input vars.cutoffLoop) val)
  val := randomUnit env.random3
  call (.mpr_sig_set_value (.input vars.resonanceLoop) val)
  if env.timer > 10000000 then
    -- Disable recording
    recValue := 0
    call (.mpr_sig_set_value (.record vars.gainLoop) recValue)
    call (.mpr_sig_set_value (.record vars.cutoffLoop) recValue)
  call (.update 0)
  call (.vTaskDelay 1)
  return { vars with recValue := recValue }

/-- The first passes through the loop, one per element of `envs`. -/
def runLoop : List IterEnv → Locals → TaskM Locals
  | [], vars => pure vars
  | env :: envs, vars => do
    let vars ← loopIteration env vars
    runLoop envs vars

/-- The task: set-up, then the loop for as many passes as `envs` is long. -/
def task (envs : List IterEnv) : TaskM Locals := do
  let vars ← taskSetup
  runLoop envs vars

/-- The calls made by the set-up part. -/
def setupCalls : List Call :=
  trace taskSetup

/-- The local variables as the set-up part leaves them. -/
def setupLocals : Locals :=
  (taskSetup.run []).1

/-- The calls made by one pass through the loop body, entered with the
locals as set-up left them. -/
def iterationCalls (env : IterEnv) : List Call :=
  trace (loopIteration env setupLocals)

/-- The calls made by the task up to the end of pass number `envs.length`. -/
def taskCalls (envs : List IterEnv) : List Call :=
  trace (task envs)

/-! ## Observations on a call trace -/

/-- The routes a trace creates: source and destination of every
`mpr_map_new`, in call order. -/
def routes (calls : List Call) : List (Sig × Sig) :=
  calls.filterMap fun
    | .mpr_map_new src dst => some (src, dst)
    | _ => none

/-- Names passed to `createLoop`, in call order. -/
def loopNames (calls : List Call) : List String :=
  calls.filterMap fun
    | .createLoop name => some name
    | _ => none

/-- Names passed to `mpr_sig_new`, in call order. -/
def signalNames (calls : List Call) : List String :=
  calls.filterMap fun
    | .mpr_sig_new name _ _ _ => some name
    | _ => none

/-- Names passed to any creation call (`createLoop` or `mpr_sig_new`), in
call order. -/
def creationNames (calls : List Call) : List String :=
  calls.filterMap fun
    | .createLoop name => some name
    | .mpr_sig_new name _ _ _ => some name
    | _ => none

/-- The range `(min, max)` the signal `name` was created with, if the trace
creates it. -/
def declaredRange (calls : List Call) (name : String) : Option (ℚ × ℚ) :=
  calls.findSome? fun
    | .mpr_sig_new n lo hi _ => if n = name then some (lo, hi) else none
    | _ => none

/-- The update handler the signal `name` was created with. -/
def handlerOf (calls : List Call) (name : String) : Option Handler :=
  calls.findSome? fun
    | .mpr_sig_new n _ _ h => if n = name then some h else none
    | _ => none

/-- The value of the last `setLength` call on `loop`. -/
def lengthOf (calls : List Call) (loop : Loop) : Option ℚ :=
  calls.foldl (fun cur c =>
    match c with
    | .setLength l beats => if l = loop then some beats else cur
    | _ => cur) none

/-- The value of the last `setPulsesPerQuarterNote` call on `loop`. -/
def pulsesPerQuarterNoteOf (calls : List Call) (loop : Loop) : Option Int :=
  calls.foldl (fun cur c =>
    match c with
    | .setPulsesPerQuarterNote l ppqn => if l = loop then some ppqn else cur
    | _ => cur) none

/-- Is this call a `mpr_sig_set_value` on the Input endpoint of `loop`? -/
def isInputSet (loop : Loop) : Call → Bool
  | .mpr_sig_set_value (.input l) _ => l == loop
  | _ => false

/-- Is this call `mapLooper.update`? -/
def isUpdate : Call → Bool
  | .update _ => true
  | _ => false

/-- The calls strictly between the first and the second `update` call. -/
def betweenUpdates (calls : List Call) : List Call :=
  ((calls.dropWhile fun c => !isUpdate c).drop 1).takeWhile fun c => !isUpdate c

/-- The writes to RecordEnable endpoints in a trace: loop and value of every
`mpr_sig_set_value` on a `getRecordSignal()`, in call order. -/
def recordWrites (calls : List Call) : List (Loop × ℚ) :=
  calls.filterMap fun
    | .mpr_sig_set_value (.record loop) value => some (loop, value)
    | _ => none

/-- The value `sig` holds after the trace as far as the task itself is
concerned: the value of the last `mpr_sig_set_value` on `sig`, if any. -/
def lastWritten (calls : List Call) (sig : Sig) : Option ℚ :=
  calls.foldl (fun cur c =>
    match c with
    | .mpr_sig_set_value s value => if s = sig then some value else cur
    | _ => cur) none

/-- Scan of a trace that yields, for every `update` call in order, how many
times the Input endpoint of `loop` was set since the previous `update` call
(or since the start of the trace); `count` is the number seen so far. -/
def inputSetsPerUpdateFrom (loop : Loop) (count : Nat) : List Call → List Nat
  | [] => []
  | c :: cs =>
    if isUpdate c then count :: inputSetsPerUpdateFrom loop 0 cs
    else inputSetsPerUpdateFrom loop (count + if isInputSet loop c then 1 else 0) cs

/-- For every `update` call of the trace, the number of sets of the Input
endpoint of `loop` since the previous `update` call. -/
def inputSetsPerUpdate (loop : Loop) (calls : List Call) : List Nat :=
  inputSetsPerUpdateFrom loop 0 calls

/-! ## Collaborators that are not part of main.cpp -/

/-- The three failure kinds of the core. -/
inductive CoreError where
  | DuplicateNameError
  | DegenerateRangeError
  | InvalidConstructionError
  deriving DecidableEq, Repr

/-- Modelled from the spec: the linear remap of `Router.onSourceChanged`
(libmapper is not part of the sources),
`destMin + (value - srcMin) / (srcMax - srcMin) * (destMax - destMin)`. -/
def linearRemap (srcMin srcMax destMin destMax value : ℚ) : ℚ :=
  destMin + (value - srcMin) / (srcMax - srcMin) * (destMax - destMin)

/-- Modelled from the spec: the destination value of
`Router.onSourceChanged`, the linear remap clamped to the destination range;
fails with `DegenerateRangeError` if `srcMax == srcMin`. -/
def remap (srcMin srcMax destMin destMax value : ℚ) : Except CoreError ℚ :=
  if srcMax = srcMin then .error .DegenerateRangeError
  else .ok (max destMin (min destMax (linearRemap srcMin srcMax destMin destMax value)))

/-- The value a route of the trace into the signal `dstName` delivers for
the source value `value`, the source range being `[srcMin, srcMax]` and the
destination range the one `dstName` was created with. -/
def routeValue (calls : List Call) (srcMin srcMax : ℚ) (dstName : String) (value : ℚ) :
    Option ℚ :=
  (declaredRange calls dstName).map fun range =>
    linearRemap srcMin srcMax range.1 range.2 value

/-- Modelled from the spec: construction-time configuration of a Loop,
`{name, lengthBeats, pulsesPerQuarterNote}` (MapLooper.hpp is not part of the
sources). -/
structure LoopConfig where
  name : String
  lengthBeats : ℚ
  pulsesPerQuarterNote : Int
  deriving DecidableEq, Repr

/-- Modelled from the spec: the validity check of Loop construction, length
and PPQN must be `> 0`, otherwise `InvalidConstructionError`. -/
def validateConstruction (cfg : LoopConfig) : Except CoreError LoopConfig :=
  if 0 < cfg.lengthBeats ∧ 0 < cfg.pulsesPerQuarterNote then .ok cfg
  else .error .InvalidConstructionError

/-- Modelled from the spec: `totalPulses = lengthBeats × pulsesPerQuarterNote`. -/
def totalPulses (cfg : LoopConfig) : ℚ :=
  cfg.lengthBeats * cfg.pulsesPerQuarterNote

/-- The configuration the trace gives the loop created under `name`: the
values of its last `setLength` and `setPulsesPerQuarterNote` calls. -/
def loopConfig (calls : List Call) (name : String) : Option LoopConfig := do
  let lengthBeats ← lengthOf calls ⟨name⟩
  let pulsesPerQuarterNote ← pulsesPerQuarterNoteOf calls ⟨name⟩
  pure { name, lengthBeats, pulsesPerQuarterNote }

/-- Modelled from the spec: the synthesis host sets a named parameter by
string identifier and value (Faust.h is not part of the sources).  The
parameter store maps identifiers to values of the host's value type. -/
def setParamValue {α : Type} (params : String → α) (name : String) (value : α) : String → α :=
  fun p => if p = name then value else params p

/-- The bodies of the three handler lambdas: each fetches the `Faust` object
attached to the signal and calls `setParamValue` on it with `*(float*)value`. -/
def Handler.body {α : Type} : Handler → (String → α) → α → (String → α)
  | .sigGainHandler, faust, value => setParamValue faust "gain" value
  | .sigResonanceHandler, faust, value => setParamValue faust "resonance" value
  | .sigCutoffHandler, faust, value => setParamValue faust "cutoffFrequency" value

/-- Delivery of `value` to the signal `name`: runs the handler the trace
registered for it, if any. -/
def deliver {α : Type} (calls : List Call) (name : String) (faust : String → α) (value : α) :
    Option (String → α) :=
  (handlerOf calls name).map fun h => h.body faust value


/-! ## The traces in closed form -/

theorem setupCalls_eq :
    setupCalls =
      [.newFaust 48000 64,
       .createLoop "gainLoop", .createLoop "cutoffLoop", .createLoop "resonanceLoop",
       .setLength ⟨"gainLoop"⟩ 1, .setLength ⟨"cutoffLoop"⟩ 1, .setLength ⟨"resonanceLoop"⟩ 1,
       .setPulsesPerQuarterNote ⟨"gainLoop"⟩ 48,
       .setPulsesPerQuarterNote ⟨"cutoffLoop"⟩ 48,
       .setPulsesPerQuarterNote ⟨"resonanceLoop"⟩ 48,
       .mpr_sig_new "faust/gain" 0 1 .sigGainHandler,
       .mpr_obj_set_prop (.named "faust/gain"),
       .mpr_sig_new "faust/resonance" 0 1 .sigResonanceHandler,
       .mpr_obj_set_prop (.named "faust/resonance"),
       .mpr_sig_new "faust/cutoffFrequency" 50 3000 .sigCutoffHandler,
       .mpr_obj_set_prop (.named "faust/cutoffFrequency"),
       .mpr_map_new (.output ⟨"gainLoop"⟩) (.named "faust/gain"),
       .mpr_obj_push (.output ⟨"gainLoop"⟩) (.named "faust/gain"),
       .mpr_map_new (.output ⟨"cutoffLoop"⟩) (.named "faust/cutoffFrequency"),
       .mpr_obj_push (.output ⟨"cutoffLoop"⟩) (.named "faust/cutoffFrequency"),
       .mpr_map_new (.output ⟨"resonanceLoop"⟩) (.named "faust/resonance"),
       .mpr_obj_push (.output ⟨"resonanceLoop"⟩) (.named "faust/resonance"),
       .mpr_sig_set_value (.record ⟨"gainLoop"⟩) 1,
       .mpr_sig_set_value (.record ⟨"cutoffLoop"⟩) 1,
       .mpr_sig_set_value (.record ⟨"resonanceLoop"⟩) 1,
       .faustStart] := by
  rfl

theorem setupLocals_eq :
    setupLocals =
      { gainLoop := ⟨"gainLoop"⟩, cutoffLoop := ⟨"cutoffLoop"⟩,
        resonanceLoop := ⟨"resonanceLoop"⟩, sigGain := .named "faust/gain",
        sigResonance := .named "faust/resonance",
        sigCutoff := .named "faust/cutoffFrequency", recValue := 1 } := by
  rfl

theorem taskSetup_run : taskSetup.run [] = (setupLocals, setupCalls) := by
  rfl

theorem loopIteration_run (env : IterEnv) (vars : Locals) (log : List Call) :
    (loopIteration env vars).run log =
      ({ vars with recValue := if env.timer > 10000000 then 0 else vars.recValue },
        log ++ ([.mpr_sig_set_value (.input vars.gainLoop) (randomUnit env.random1),
                 .mpr_sig_set_value (.input vars.cutoffLoop) (randomUnit env.random2),
                 .mpr_sig_set_value (.input vars.resonanceLoop) (randomUnit env.random3)]
          ++ (if env.timer > 10000000 then
                [.mpr_sig_set_value (.record vars.gainLoop) 0,
                 .mpr_sig_set_value (.record vars.cutoffLoop) 0]
              else [])
          ++ [.update 0, .vTaskDelay 1])) := by
  unfold loopIteration
  split_ifs with h
  · simp [call, StateT.run, bind, StateT.bind, modify, modifyGet, MonadStateOf.modifyGet,
      StateT.modifyGet, pure, StateT.pure, h]
  · simp [call, StateT.run, bind, StateT.bind, modify, modifyGet, MonadStateOf.modifyGet,
      StateT.modifyGet, pure, StateT.pure, h]

theorem iterationCalls_eq (env : IterEnv) :
    iterationCalls env =
      [.mpr_sig_set_value (.input ⟨"gainLoop"⟩) (randomUnit env.random1),
       .mpr_sig_set_value (.input ⟨"cutoffLoop"⟩) (randomUnit env.random2),
       .mpr_sig_set_value (.input ⟨"resonanceLoop"⟩) (randomUnit env.random3)]
      ++ (if env.timer > 10000000 then
            [.mpr_sig_set_value (.record ⟨"gainLoop"⟩) 0,
             .mpr_sig_set_value (.record ⟨"cutoffLoop"⟩) 0]
          else [])
      ++ [.update 0, .vTaskDelay 1] := by
  have h := loopIteration_run env setupLocals []
  rw [setupLocals_eq] at h
  simp only [iterationCalls, trace, setupLocals_eq, h, List.nil_append]

theorem runLoop_run (envs : List IterEnv) (recValue : ℚ) (log : List Call) :
    ((runLoop envs { setupLocals with recValue := recValue }).run log).2 =
      log ++ envs.flatMap iterationCalls := by
  induction envs generalizing recValue log with
  | nil => simp [runLoop, StateT.run, pure, StateT.pure]
  | cons env envs ih =>
    have h := loopIteration_run env { setupLocals with recValue := recValue } log
    have hi := iterationCalls_eq env
    simp only [StateT.run] at h ih ⊢
    simp only [runLoop, bind, StateT.bind, h]
    rw [ih]
    simp [hi, setupLocals_eq]

theorem taskCalls_eq (envs : List IterEnv) :
    taskCalls envs = setupCalls ++ envs.flatMap iterationCalls := by
  have h := runLoop_run envs setupLocals.recValue setupCalls
  have hs := taskSetup_run
  simp only [StateT.run] at h hs
  simp only [taskCalls, trace, task, StateT.run, bind, StateT.bind, hs]
  exact h

/-! ## Facts about the observations of the set-up trace -/

theorem routes_setupCalls :
    routes setupCalls =
      [(.output ⟨"gainLoop"⟩, .named "faust/gain"),
       (.output ⟨"cutoffLoop"⟩, .named "faust/cutoffFrequency"),
       (.output ⟨"resonanceLoop"⟩, .named "faust/resonance")] := by
  rfl

theorem loopNames_setupCalls :
    loopNames setupCalls = ["gainLoop", "cutoffLoop", "resonanceLoop"] := by
  rfl

theorem signalNames_setupCalls :
    signalNames setupCalls = ["faust/gain", "faust/resonance", "faust/cutoffFrequency"] := by
  rfl

theorem creationNames_setupCalls :
    creationNames setupCalls =
      ["gainLoop", "cutoffLoop", "resonanceLoop",
       "faust/gain", "faust/resonance", "faust/cutoffFrequency"] := by
  rfl

theorem declaredRange_cutoff :
    declaredRange setupCalls "faust/cutoffFrequency" = some (50, 3000) := by
  simp [setupCalls_eq, declaredRange]

theorem declaredRange_gain :
    declaredRange setupCalls "faust/gain" = some (0, 1) := by
  simp [setupCalls_eq, declaredRange]

theorem declaredRange_resonance :
    declaredRange setupCalls "faust/resonance" = some (0, 1) := by
  simp [setupCalls_eq, declaredRange]

/-! ## Facts about the narrowing to binary32 -/

theorem excessBits_le (p width n k : Nat) (h : n < 2 ^ (p + k)) :
    excessBits p width n ≤ k := by
  induction width generalizing n k with
  | zero => simp [excessBits]
  | succ width ih =>
    unfold excessBits
    split_ifs with hlt
    · exact Nat.zero_le k
    · cases k with
      | zero => exact absurd (by simpa using h) hlt
      | succ k =>
        have hhalf : n / 2 < 2 ^ (p + k) := by
          rw [Nat.div_lt_iff_lt_mul (by norm_num)]
          calc n < 2 ^ (p + (k + 1)) := h
            _ = 2 ^ (p + k) * 2 := by rw [← Nat.add_assoc, pow_succ]
        exact Nat.succ_le_succ (ih _ _ hhalf)

theorem excessBits_eq_zero (p width n : Nat) (h : n < 2 ^ p) : excessBits p width n = 0 :=
  Nat.le_zero.mp (excessBits_le p width n 0 (by simpa using h))

theorem roundAtShift_zero (n : Nat) : roundAtShift 0 n = n := by
  simp [roundAtShift, Nat.mod_one]

theorem roundAtShift_near (shift n : Nat) :
    2 * roundAtShift shift n ≤ 2 * n + 2 ^ shift ∧
    2 * n ≤ 2 * roundAtShift shift n + 2 ^ shift := by
  have hdiv : 2 ^ shift * (n / 2 ^ shift) + n % 2 ^ shift = n := Nat.div_add_mod n (2 ^ shift)
  have hrem : n % 2 ^ shift < 2 ^ shift := Nat.mod_lt _ (by positivity)
  have hmul : (n / 2 ^ shift + 1) * 2 ^ shift = 2 ^ shift * (n / 2 ^ shift) + 2 ^ shift := by
    ring
  have hmul0 : n / 2 ^ shift * 2 ^ shift = 2 ^ shift * (n / 2 ^ shift) := by ring
  unfold roundAtShift
  simp only []
  rw [hmul, hmul0]
  generalize 2 ^ shift * (n / 2 ^ shift) = k at *
  generalize 2 ^ shift = m at *
  generalize n % m = r at *
  split_ifs <;> omega

theorem roundAtShift_le (shift n : Nat) (hs : shift ≤ 32) (hn : n < 2 ^ 32) :
    roundAtShift shift n ≤ 2 ^ 32 := by
  have hq : n / 2 ^ shift < 2 ^ (32 - shift) := by
    rw [Nat.div_lt_iff_lt_mul (by positivity), ← pow_add, Nat.sub_add_cancel hs]
    exact hn
  have hup : (n / 2 ^ shift + 1) * 2 ^ shift ≤ 2 ^ 32 := by
    calc (n / 2 ^ shift + 1) * 2 ^ shift ≤ 2 ^ (32 - shift) * 2 ^ shift :=
          Nat.mul_le_mul_right _ hq
      _ = 2 ^ 32 := by rw [← pow_add, Nat.sub_add_cancel hs]
  have hdown : n / 2 ^ shift * 2 ^ shift ≤ 2 ^ 32 :=
    le_trans (Nat.div_mul_le_self n _) (le_of_lt hn)
  unfold roundAtShift
  simp only []
  split_ifs <;> assumption

theorem randomQuotient_bounds (r : Nat) (hr : r < 2 ^ 32) :
    0 ≤ randomQuotient r ∧ randomQuotient r < 1 := by
  have hq : (r : ℚ) < 4294967296 := by exact_mod_cast hr
  have h0 : (0 : ℚ) ≤ r := Nat.cast_nonneg r
  unfold randomQuotient
  constructor
  · positivity
  · rw [div_lt_one (by norm_num)]
    exact hq

theorem randomUnit_bounds (r : Nat) (hr : r < 2 ^ 32) :
    0 ≤ randomUnit r ∧ randomUnit r ≤ 1 ∧
    |randomUnit r - randomQuotient r| ≤ 1 / 2 ^ 25 := by
  have hs : excessBits 24 32 r ≤ 8 := excessBits_le 24 32 r 8 (by simpa using hr)
  have hle : roundToBits 24 r ≤ 2 ^ 32 := roundAtShift_le _ r (le_trans hs (by norm_num)) hr
  have hnear := roundAtShift_near (excessBits 24 32 r) r
  have hpow : 2 ^ excessBits 24 32 r ≤ 2 ^ 8 := Nat.pow_le_pow_right (by norm_num) hs
  have h1 : 2 * roundToBits 24 r ≤ 2 * r + 256 := by
    have := hnear.1
    unfold roundToBits
    omega
  have h2 : 2 * r ≤ 2 * roundToBits 24 r + 256 := by
    have := hnear.2
    unfold roundToBits
    omega
  have hq : ((roundToBits 24 r : Nat) : ℚ) ≤ 4294967296 := by exact_mod_cast hle
  have h1q : 2 * ((roundToBits 24 r : Nat) : ℚ) ≤ 2 * (r : ℚ) + 256 := by exact_mod_cast h1
  have h2q : 2 * (r : ℚ) ≤ 2 * ((roundToBits 24 r : Nat) : ℚ) + 256 := by exact_mod_cast h2
  have h0 : (0 : ℚ) ≤ ((roundToBits 24 r : Nat) : ℚ) := Nat.cast_nonneg _
  unfold randomUnit randomQuotient
  refine ⟨by positivity, ?_, ?_⟩
  · rw [div_le_one (by norm_num)]
    exact hq
  · rw [← sub_div, abs_le]
    constructor
    · rw [le_div_iff₀ (by norm_num)]
      norm_num
      linarith
    · rw [div_le_iff₀ (by norm_num)]
      norm_num
      linarith

theorem randomUnit_exact (r : Nat) (hr : r < 2 ^ 24) : randomUnit r = randomQuotient r := by
  unfold randomUnit randomQuotient roundToBits
  rw [excessBits_eq_zero 24 32 r hr, roundAtShift_zero]

theorem randomUnit_zero : randomUnit 0 = 0 := by
  rw [randomUnit_exact 0 (by norm_num)]
  simp [randomQuotient]

theorem randomUnit_top : randomUnit 4294967295 = 1 := by
  have h : roundToBits 24 4294967295 = 4294967296 := by decide
  simp [randomUnit, h]

/-! ## The claims -/

/-- C1: the route from the Output of cutoffLoop goes to "faust/cutoffFrequency",
which is created with the range [50, 3000]; with the source range [0, 1] the
linear remap of that route sends 0.5 to exactly 1525 and every source value
in [0, 1] to a value in [50, 3000]. -/
theorem C1_cutoff_route_remap (v : ℚ) (h0 : 0 ≤ v) (h1 : v ≤ 1) :
    (Sig.output ⟨"cutoffLoop"⟩, Sig.named "faust/cutoffFrequency") ∈ routes setupCalls ∧
    declaredRange setupCalls "faust/cutoffFrequency" = some (50, 3000) ∧
    routeValue setupCalls 0 1 "faust/cutoffFrequency" (1 / 2) = some 1525 ∧
    ∃ d, routeValue setupCalls 0 1 "faust/cutoffFrequency" v = some d ∧
      d = 50 + (v - 0) / (1 - 0) * (3000 - 50) ∧ 50 ≤ d ∧ d ≤ 3000 ∧
      remap 0 1 50 3000 v = .ok d := by
  refine ⟨?_, declaredRange_cutoff, ?_, ?_⟩
  · rw [routes_setupCalls]
    simp
  · simp only [routeValue, declaredRange_cutoff, Option.map_some, linearRemap]
    norm_num
  · have hlo : 50 ≤ linearRemap 0 1 50 3000 v := by
      simp only [linearRemap]
      nlinarith
    have hhi : linearRemap 0 1 50 3000 v ≤ 3000 := by
      simp only [linearRemap]
      nlinarith
    refine ⟨linearRemap 0 1 50 3000 v, ?_, rfl, hlo, hhi, ?_⟩
    · simp [routeValue, declaredRange_cutoff]
    · simp [remap, hlo, hhi]

/-- Witness of C1 at the upper end of the source range, the value 1. -/
theorem C1_cutoff_route_remap_witness :
    (0 : ℚ) ≤ 1 ∧ (1 : ℚ) ≤ 1 ∧
    ∃ d, routeValue setupCalls 0 1 "faust/cutoffFrequency" 1 = some d ∧
      d = 50 + (1 - 0) / (1 - 0) * (3000 - 50) ∧ 50 ≤ d ∧ d ≤ 3000 ∧
      remap 0 1 50 3000 1 = .ok d :=
  ⟨by norm_num, by norm_num, (C1_cutoff_route_remap 1 (by norm_num) (by norm_num)).2.2.2⟩

/-- C2: the set-up creates exactly three routes, gainLoop Output to
"faust/gain", cutoffLoop Output to "faust/cutoffFrequency" and resonanceLoop
Output to "faust/resonance"; their destinations are pairwise distinct, so
every signal is the destination of at most one route, and their sources are
pairwise distinct. -/
theorem C2_three_routes_distinct_ends :
    routes setupCalls =
      [(.output ⟨"gainLoop"⟩, .named "faust/gain"),
       (.output ⟨"cutoffLoop"⟩, .named "faust/cutoffFrequency"),
       (.output ⟨"resonanceLoop"⟩, .named "faust/resonance")] ∧
    (routes setupCalls).length = 3 ∧
    ((routes setupCalls).map Prod.snd).Nodup ∧
    ((routes setupCalls).map Prod.fst).Nodup ∧
    ∀ dst : Sig, ((routes setupCalls).filter fun r => r.2 = dst).length ≤ 1 := by
  have hd : ((routes setupCalls).map Prod.snd).Nodup := by
    rw [routes_setupCalls]
    decide
  refine ⟨routes_setupCalls, by rw [routes_setupCalls]; rfl, hd, ?_, ?_⟩
  · rw [routes_setupCalls]
    decide
  · intro dst
    rw [routes_setupCalls]
    by_cases h1 : dst = .named "faust/gain"
    · subst h1
      decide
    by_cases h2 : dst = .named "faust/cutoffFrequency"
    · subst h2
      decide
    by_cases h3 : dst = .named "faust/resonance"
    · subst h3
      decide
    simp [List.filter_cons, Ne.symm h1, Ne.symm h2, Ne.symm h3]

/-- C4: every loop the set-up creates ends up configured with
lengthBeats = 1 > 0 and pulsesPerQuarterNote = 48 > 0, so the construction
validity check accepts its configuration, and its totalPulses is 48. -/
theorem C4_loops_configured_valid (name : String) (h : name ∈ loopNames setupCalls) :
    ∃ cfg, loopConfig setupCalls name = some cfg ∧
      cfg.name = name ∧
      cfg.lengthBeats = 1 ∧ 0 < cfg.lengthBeats ∧
      cfg.pulsesPerQuarterNote = 48 ∧ 0 < cfg.pulsesPerQuarterNote ∧
      validateConstruction cfg = .ok cfg ∧
      totalPulses cfg = 48 := by
  refine ⟨⟨name, 1, 48⟩, ?_, rfl, rfl, by norm_num, rfl, by norm_num, ?_, ?_⟩
  · rw [loopNames_setupCalls] at h
    simp only [List.mem_cons, List.mem_singleton, List.not_mem_nil, or_false] at h
    rcases h with rfl | rfl | rfl <;>
      simp [setupCalls_eq, loopConfig, lengthOf, pulsesPerQuarterNoteOf]
  · simp [validateConstruction]
  · simp [totalPulses]

/-- Witness of C4 at the loop named "cutoffLoop". -/
theorem C4_loops_configured_valid_witness :
    "cutoffLoop" ∈ loopNames setupCalls ∧
    ∃ cfg, loopConfig setupCalls "cutoffLoop" = some cfg ∧
      cfg.name = "cutoffLoop" ∧
      cfg.lengthBeats = 1 ∧ 0 < cfg.lengthBeats ∧
      cfg.pulsesPerQuarterNote = 48 ∧ 0 < cfg.pulsesPerQuarterNote ∧
      validateConstruction cfg = .ok cfg ∧
      totalPulses cfg = 48 :=
  ⟨by rw [loopNames_setupCalls]; simp,
   C4_loops_configured_valid "cutoffLoop" (by rw [loopNames_setupCalls]; simp)⟩

/-- C5: for every value v delivered to a destination signal, the handler
registered for "faust/gain" sets the parameter "gain" to v, the one for
"faust/resonance" sets "resonance" to v and the one for
"faust/cutoffFrequency" sets "cutoffFrequency" to v; each leaves every other
parameter as it was. -/
theorem C5_handlers_set_one_parameter {α : Type} (faust : String → α) (v : α) :
    (∃ after, deliver setupCalls "faust/gain" faust v = some after ∧
      after "gain" = v ∧ ∀ p, p ≠ "gain" → after p = faust p) ∧
    (∃ after, deliver setupCalls "faust/resonance" faust v = some after ∧
      after "resonance" = v ∧ ∀ p, p ≠ "resonance" → after p = faust p) ∧
    (∃ after, deliver setupCalls "faust/cutoffFrequency" faust v = some after ∧
      after "cutoffFrequency" = v ∧ ∀ p, p ≠ "cutoffFrequency" → after p = faust p) := by
  have hg : handlerOf setupCalls "faust/gain" = some .sigGainHandler := by
    simp [setupCalls_eq, handlerOf]
  have hr : handlerOf setupCalls "faust/resonance" = some .sigResonanceHandler := by
    simp [setupCalls_eq, handlerOf]
  have hc : handlerOf setupCalls "faust/cutoffFrequency" = some .sigCutoffHandler := by
    simp [setupCalls_eq, handlerOf]
  refine ⟨⟨_, by rw [deliver, hg]; rfl, ?_, ?_⟩, ⟨_, by rw [deliver, hr]; rfl, ?_, ?_⟩,
    ⟨_, by rw [deliver, hc]; rfl, ?_, ?_⟩⟩
  all_goals first
    | (simp [Handler.body, setParamValue]; done)
    | (intro p hp; simp [Handler.body, setParamValue, hp])

/-- C6: the names passed to createLoop are pairwise distinct, the names
passed to mpr_sig_new are pairwise distinct, and no creation call of the
set-up is made with a name that an earlier creation call of the set-up
already used. -/
theorem C6_creation_names_distinct (before after : List String) (name : String)
    (h : creationNames setupCalls = before ++ name :: after) :
    loopNames setupCalls = ["gainLoop", "cutoffLoop", "resonanceLoop"] ∧
    signalNames setupCalls = ["faust/gain", "faust/resonance", "faust/cutoffFrequency"] ∧
    (loopNames setupCalls).Nodup ∧
    (signalNames setupCalls).Nodup ∧
    (creationNames setupCalls).Nodup ∧
    name ∉ before := by
  have hnd : (creationNames setupCalls).Nodup := by
    rw [creationNames_setupCalls]
    decide
  refine ⟨loopNames_setupCalls, signalNames_setupCalls, ?_, ?_, hnd, ?_⟩
  · rw [loopNames_setupCalls]
    decide
  · rw [signalNames_setupCalls]
    decide
  · rw [h] at hnd
    intro hmem
    have hdisj := (List.nodup_append.mp hnd).2.2
    exact hdisj hmem (List.mem_cons_self name after)

/-- Witness of C6 at the fifth creation call, `mpr_sig_new` for
"faust/resonance". -/
theorem C6_creation_names_distinct_witness :
    creationNames setupCalls =
      ["gainLoop", "cutoffLoop", "resonanceLoop", "faust/gain"] ++
        "faust/resonance" :: ["faust/cutoffFrequency"] ∧
    "faust/resonance" ∉ ["gainLoop", "cutoffLoop", "resonanceLoop", "faust/gain"] :=
  ⟨creationNames_setupCalls,
   (C6_creation_names_distinct ["gainLoop", "cutoffLoop", "resonanceLoop", "faust/gain"]
      ["faust/cutoffFrequency"] "faust/resonance" creationNames_setupCalls).2.2.2.2.2⟩

/-- C8: every signal the set-up creates is created with min < max, namely
"faust/gain" with [0, 1], "faust/resonance" with [0, 1] and
"faust/cutoffFrequency" with [50, 3000]; so the width max - min of each
declared range is non-zero. -/
theorem C8_declared_ranges_nondegenerate (name : String) (lo hi : ℚ) (handler : Handler)
    (h : Call.mpr_sig_new name lo hi handler ∈ setupCalls) :
    (declaredRange setupCalls "faust/gain" = some (0, 1) ∧
     declaredRange setupCalls "faust/resonance" = some (0, 1) ∧
     declaredRange setupCalls "faust/cutoffFrequency" = some (50, 3000)) ∧
    declaredRange setupCalls name = some (lo, hi) ∧
    lo < hi ∧ hi - lo ≠ 0 := by
  refine ⟨⟨declaredRange_gain, declaredRange_resonance, declaredRange_cutoff⟩, ?_⟩
  rw [setupCalls_eq] at h
  simp only [List.mem_cons, List.mem_singleton, List.not_mem_nil, or_false, reduceCtorEq,
    false_or, Call.mpr_sig_new.injEq] at h
  have hlt : declaredRange setupCalls name = some (lo, hi) ∧ lo < hi := by
    rcases h with ⟨rfl, rfl, rfl, -⟩ | ⟨rfl, rfl, rfl, -⟩ | ⟨rfl, rfl, rfl, -⟩
    · exact ⟨declaredRange_gain, by norm_num⟩
    · exact ⟨declaredRange_resonance, by norm_num⟩
    · exact ⟨declaredRange_cutoff, by norm_num⟩
  exact ⟨hlt.1, hlt.2, sub_ne_zero.mpr (ne_of_gt hlt.2)⟩

/-- Witness of C8 at the creation of "faust/cutoffFrequency". -/
theorem C8_declared_ranges_nondegenerate_witness :
    Call.mpr_sig_new "faust/cutoffFrequency" 50 3000 .sigCutoffHandler ∈ setupCalls ∧
    declaredRange setupCalls "faust/cutoffFrequency" = some (50, 3000) ∧
    (50 : ℚ) < 3000 ∧ (3000 : ℚ) - 50 ≠ 0 :=
  have hmem : Call.mpr_sig_new "faust/cutoffFrequency" 50 3000 .sigCutoffHandler ∈ setupCalls := by
    rw [setupCalls_eq]
    simp
  have hthm := C8_declared_ranges_nondegenerate "faust/cutoffFrequency" 50 3000
    .sigCutoffHandler hmem
  ⟨hmem, hthm.2.1, hthm.2.2.1, hthm.2.2.2⟩

/-- C9: for every 32-bit random word r, the quotient r / 4294967296 taken
as an exact rational satisfies 0 <= r / 4294967296 < 1; the value the main
loop stores in `val` is that quotient narrowed to binary32, it differs from
the quotient by at most 2^(-25), equals it for r < 2^24, and lies in the
unit interval [0, 1]; so every value a pass through the main loop writes to
a loop Input lies in the unit interval. -/
theorem C9_input_value_in_unit_interval (r : Nat) (hr : r < 2 ^ 32) :
    randomQuotient r = (r : ℚ) / 4294967296 ∧
    (0 ≤ randomQuotient r ∧ randomQuotient r < 1) ∧
    (0 ≤ randomUnit r ∧ randomUnit r ≤ 1) ∧
    |randomUnit r - randomQuotient r| ≤ 1 / 2 ^ 25 ∧
    (r < 2 ^ 24 → randomUnit r = randomQuotient r) ∧
    ∀ (env : IterEnv) (loop : Loop) (value : ℚ),
      env.random1 < 2 ^ 32 → env.random2 < 2 ^ 32 → env.random3 < 2 ^ 32 →
      Call.mpr_sig_set_value (.input loop) value ∈ iterationCalls env →
      0 ≤ value ∧ value ≤ 1 := by
  have hb := randomUnit_bounds r hr
  refine ⟨rfl, randomQuotient_bounds r hr, ⟨hb.1, hb.2.1⟩, hb.2.2, randomUnit_exact r, ?_⟩
  intro env loop value h1 h2 h3 hmem
  rw [iterationCalls_eq] at hmem
  have hcases : value = randomUnit env.random1 ∨ value = randomUnit env.random2 ∨
      value = randomUnit env.random3 := by
    split_ifs at hmem <;> simp at hmem <;>
      rcases hmem with ⟨-, hv⟩ | ⟨-, hv⟩ | ⟨-, hv⟩ <;> simp [hv]
  rcases hcases with rfl | rfl | rfl
  · exact ⟨(randomUnit_bounds _ h1).1, (randomUnit_bounds _ h1).2.1⟩
  · exact ⟨(randomUnit_bounds _ h2).1, (randomUnit_bounds _ h2).2.1⟩
  · exact ⟨(randomUnit_bounds _ h3).1, (randomUnit_bounds _ h3).2.1⟩

/-- Witness of C9 at the largest 32-bit word, r = 4294967295: the exact
quotient is below 1, the binary32 value written is exactly 1. -/
theorem C9_input_value_in_unit_interval_witness :
    (4294967295 : Nat) < 2 ^ 32 ∧
    (0 ≤ randomQuotient 4294967295 ∧ randomQuotient 4294967295 < 1) ∧
    (0 ≤ randomUnit 4294967295 ∧ randomUnit 4294967295 ≤ 1) ∧
    randomUnit 4294967295 = 1 :=
  have hr : (4294967295 : Nat) < 2 ^ 32 := by norm_num
  have hthm := C9_input_value_in_unit_interval 4294967295 hr
  ⟨hr, hthm.2.1, hthm.2.2.1, randomUnit_top⟩

/-! ## Facts about runs of the main loop -/

theorem inputSetsPerUpdateFrom_setup (loop : Loop) (rest : List Call) :
    inputSetsPerUpdateFrom loop 0 (setupCalls ++ rest) = inputSetsPerUpdateFrom loop 0 rest := by
  rw [setupCalls_eq]
  simp [inputSetsPerUpdateFrom, isUpdate, isInputSet]

theorem inputSetsPerUpdateFrom_iteration (env : IterEnv) (loop : Loop) (rest : List Call)
    (h : loop ∈ [setupLocals.gainLoop, setupLocals.cutoffLoop, setupLocals.resonanceLoop]) :
    inputSetsPerUpdateFrom loop 0 (iterationCalls env ++ rest) =
      1 :: inputSetsPerUpdateFrom loop 0 rest := by
  rw [iterationCalls_eq]
  rw [setupLocals_eq] at h
  simp only [List.mem_cons, List.mem_singleton, List.not_mem_nil, or_false] at h
  rcases h with rfl | rfl | rfl <;> split_ifs <;>
    simp [inputSetsPerUpdateFrom, isUpdate, isInputSet]

theorem lastWritten_append (calls more : List Call) (sig : Sig) :
    lastWritten (calls ++ more) sig =
      more.foldl (fun cur c =>
        match c with
        | .mpr_sig_set_value s value => if s = sig then some value else cur
        | _ => cur) (lastWritten calls sig) := by
  simp [lastWritten, List.foldl_append]

theorem lastWritten_iteration_zero (calls : List Call) (env : IterEnv) (loop : Loop)
    (h : lastWritten calls (.record loop) = some 0) :
    lastWritten (calls ++ iterationCalls env) (.record loop) = some 0 := by
  rw [lastWritten_append, h, iterationCalls_eq]
  split_ifs <;> simp [List.foldl]

theorem lastWritten_iterations_zero (calls : List Call) (envs : List IterEnv) (loop : Loop)
    (h : lastWritten calls (.record loop) = some 0) :
    lastWritten (calls ++ envs.flatMap iterationCalls) (.record loop) = some 0 := by
  induction envs generalizing calls with
  | nil => simpa using h
  | cons env envs ih =>
    rw [List.flatMap_cons, ← List.append_assoc]
    exact ih _ (lastWritten_iteration_zero calls env loop h)

theorem lastWritten_resonance_record (envs : List IterEnv) (calls : List Call)
    (h : lastWritten calls (.record ⟨"resonanceLoop"⟩) = some 1) :
    lastWritten (calls ++ envs.flatMap iterationCalls) (.record ⟨"resonanceLoop"⟩) = some 1 := by
  induction envs generalizing calls with
  | nil => simpa using h
  | cons env envs ih =>
    rw [List.flatMap_cons, ← List.append_assoc]
    apply ih
    rw [lastWritten_append, h, iterationCalls_eq]
    split_ifs <;> simp [List.foldl]

theorem inputSetsPerUpdate_taskCalls (envs : List IterEnv) (loop : Loop)
    (h : loop ∈ [setupLocals.gainLoop, setupLocals.cutoffLoop, setupLocals.resonanceLoop]) :
    inputSetsPerUpdate loop (taskCalls envs) = List.replicate envs.length 1 := by
  rw [taskCalls_eq, inputSetsPerUpdate, inputSetsPerUpdateFrom_setup]
  induction envs with
  | nil => simp [inputSetsPerUpdateFrom]
  | cons env envs ih =>
    rw [List.flatMap_cons, inputSetsPerUpdateFrom_iteration env loop _ h, ih]
    simp [List.replicate_succ]

/-! ## The claims about the main loop -/

/-- C3: in every pass through the main loop the Input endpoint of each of
gainLoop, cutoffLoop and resonanceLoop is set exactly once, the pass calls
update exactly once, and all Input sets come before that call; in a run of
the task every update call is preceded by exactly one set of each Input
since the previous update call, so no Input is set twice between two
consecutive update calls. -/
theorem C3_inputs_set_once_before_update (envs : List IterEnv) (env next : IterEnv)
    (loop : Loop)
    (h : loop ∈ [setupLocals.gainLoop, setupLocals.cutoffLoop, setupLocals.resonanceLoop]) :
    ((iterationCalls env).filter isUpdate).length = 1 ∧
    ((iterationCalls env).filter (isInputSet loop)).length = 1 ∧
    (((iterationCalls env).takeWhile fun c => !isUpdate c).filter (isInputSet loop)).length = 1 ∧
    ((betweenUpdates (iterationCalls env ++ iterationCalls next)).filter
      (isInputSet loop)).length = 1 ∧
    inputSetsPerUpdate loop (taskCalls envs) = List.replicate envs.length 1 := by
  refine ⟨?_, ?_, ?_, ?_, inputSetsPerUpdate_taskCalls envs loop h⟩
  · rw [iterationCalls_eq]
    split_ifs <;> simp [isUpdate]
  all_goals
    rw [setupLocals_eq] at h
    simp only [List.mem_cons, List.mem_singleton, List.not_mem_nil, or_false] at h
  · rw [iterationCalls_eq]
    rcases h with rfl | rfl | rfl <;> split_ifs <;> simp [isInputSet, List.filter_cons]
  · rw [iterationCalls_eq]
    rcases h with rfl | rfl | rfl <;> split_ifs <;>
      simp [isInputSet, isUpdate, List.filter_cons, List.takeWhile_cons]
  · rw [iterationCalls_eq, iterationCalls_eq]
    rcases h with rfl | rfl | rfl <;> split_ifs <;>
      simp [betweenUpdates, isInputSet, isUpdate, List.filter_cons, List.takeWhile_cons,
        List.dropWhile_cons]

/-- Witness of C3 at resonanceLoop, for two passes before and one after the
ten-second mark. -/
theorem C3_inputs_set_once_before_update_witness :
    (⟨"resonanceLoop"⟩ : Loop) ∈
      [setupLocals.gainLoop, setupLocals.cutoffLoop, setupLocals.resonanceLoop] ∧
    inputSetsPerUpdate ⟨"resonanceLoop"⟩
      (taskCalls [⟨1, 2, 3, 5⟩, ⟨4, 5, 6, 10000000⟩, ⟨7, 8, 9, 10000001⟩]) = [1, 1, 1] :=
  have hmem : (⟨"resonanceLoop"⟩ : Loop) ∈
      [setupLocals.gainLoop, setupLocals.cutoffLoop, setupLocals.resonanceLoop] := by
    rw [setupLocals_eq]
    simp
  ⟨hmem, (C3_inputs_set_once_before_update
    [⟨1, 2, 3, 5⟩, ⟨4, 5, 6, 10000000⟩, ⟨7, 8, 9, 10000001⟩] ⟨1, 2, 3, 5⟩ ⟨4, 5, 6, 10000000⟩
    ⟨"resonanceLoop"⟩ hmem).2.2.2.2⟩

/-- C7 (evaluation at the failing input): in a pass whose timer reading is
10000001 the loop body writes 0 to the RecordEnable endpoints of gainLoop and
cutoffLoop only; the RecordEnable endpoint of resonanceLoop, set to 1 at
startup, is written by no pass and still holds 1 after any run. -/
theorem C7_resonance_recording_not_disabled :
    recordWrites setupCalls =
      [(⟨"gainLoop"⟩, 1), (⟨"cutoffLoop"⟩, 1), (⟨"resonanceLoop"⟩, 1)] ∧
    iterationCalls ⟨0, 0, 0, 10000001⟩ =
      [.mpr_sig_set_value (.input ⟨"gainLoop"⟩) 0,
       .mpr_sig_set_value (.input ⟨"cutoffLoop"⟩) 0,
       .mpr_sig_set_value (.input ⟨"resonanceLoop"⟩) 0,
       .mpr_sig_set_value (.record ⟨"gainLoop"⟩) 0,
       .mpr_sig_set_value (.record ⟨"cutoffLoop"⟩) 0,
       .update 0, .vTaskDelay 1] ∧
    lastWritten (taskCalls [⟨0, 0, 0, 10000001⟩]) (.record ⟨"gainLoop"⟩) = some 0 ∧
    lastWritten (taskCalls [⟨0, 0, 0, 10000001⟩]) (.record ⟨"cutoffLoop"⟩) = some 0 ∧
    lastWritten (taskCalls [⟨0, 0, 0, 10000001⟩]) (.record ⟨"resonanceLoop"⟩) = some 1 ∧
    ∀ envs : List IterEnv,
      lastWritten (taskCalls envs) (.record ⟨"resonanceLoop"⟩) = some 1 := by
  have hsetup : lastWritten setupCalls (.record ⟨"resonanceLoop"⟩) = some 1 := by
    simp [setupCalls_eq, lastWritten]
  have hall : ∀ envs : List IterEnv,
      lastWritten (taskCalls envs) (.record ⟨"resonanceLoop"⟩) = some 1 := by
    intro envs
    rw [taskCalls_eq]
    exact lastWritten_resonance_record envs setupCalls hsetup
  refine ⟨by simp [setupCalls_eq, recordWrites], ?_, ?_, ?_, hall _, hall⟩
  · rw [iterationCalls_eq]
    simp [randomUnit_zero]
  · rw [taskCalls_eq, lastWritten_append]
    simp only [List.flatMap_cons, List.flatMap_nil, List.append_nil]
    rw [iterationCalls_eq]
    simp [List.foldl]
  · rw [taskCalls_eq, lastWritten_append]
    simp only [List.flatMap_cons, List.flatMap_nil, List.append_nil]
    rw [iterationCalls_eq]
    simp [List.foldl]

/-- C10: inside the main loop a RecordEnable endpoint is only ever written
with 0, and a pass writes one if and only if its timer reading is strictly
greater than 10000000 (a reading of exactly 10000000 writes none); hence a
RecordEnable endpoint that holds 0 still holds 0 after any further passes,
and a pass whose timer reading is at least that of a disabling pass makes
the same RecordEnable writes. -/
theorem C10_record_writes_only_disable (env later : IterEnv)
    (hgt : env.timer > 10000000) (hle : env.timer ≤ later.timer) :
    (∀ (e : IterEnv) (loop : Loop) (value : ℚ),
      Call.mpr_sig_set_value (.record loop) value ∈ iterationCalls e → value = 0) ∧
    (∀ e : IterEnv,
      (∃ loop value, Call.mpr_sig_set_value (.record loop) value ∈ iterationCalls e) ↔
        e.timer > 10000000) ∧
    (∀ e : IterEnv, e.timer = 10000000 → recordWrites (iterationCalls e) = []) ∧
    (∀ (envs more : List IterEnv) (loop : Loop),
      lastWritten (taskCalls envs) (.record loop) = some 0 →
      lastWritten (taskCalls (envs ++ more)) (.record loop) = some 0) ∧
    recordWrites (iterationCalls env) = [(⟨"gainLoop"⟩, 0), (⟨"cutoffLoop"⟩, 0)] ∧
    recordWrites (iterationCalls later) = recordWrites (iterationCalls env) := by
  have hlater : later.timer > 10000000 := lt_of_lt_of_le hgt hle
  refine ⟨?_, ?_, ?_, ?_, ?_, ?_⟩
  · intro e loop value hmem
    rw [iterationCalls_eq] at hmem
    split_ifs at hmem <;> simp at hmem
    rcases hmem with ⟨-, hv⟩ | ⟨-, hv⟩ <;> exact hv
  · intro e
    rw [iterationCalls_eq]
    constructor
    · rintro ⟨loop, value, hmem⟩
      by_contra hn
      simp [hn] at hmem
    · intro ht
      exact ⟨⟨"gainLoop"⟩, 0, by simp [ht]⟩
  · intro e ht
    rw [iterationCalls_eq]
    simp [ht, recordWrites]
  · intro envs more loop h
    rw [taskCalls_eq] at h ⊢
    rw [List.flatMap_append, ← List.append_assoc]
    exact lastWritten_iterations_zero _ more loop h
  · rw [iterationCalls_eq]
    simp [hgt, recordWrites]
  · rw [iterationCalls_eq, iterationCalls_eq]
    simp [hgt, hlater, recordWrites]

/-- Witness of C10 at a pass with timer reading 10000001 followed by one
with timer reading 20000000. -/
theorem C10_record_writes_only_disable_witness :
    (10000001 : Int) > 10000000 ∧ (10000001 : Int) ≤ 20000000 ∧
    recordWrites (iterationCalls ⟨1, 2, 3, 10000001⟩) =
      [(⟨"gainLoop"⟩, 0), (⟨"cutoffLoop"⟩, 0)] ∧
    recordWrites (iterationCalls ⟨4, 5, 6, 20000000⟩) =
      recordWrites (iterationCalls ⟨1, 2, 3, 10000001⟩) :=
  ⟨by norm_num, by norm_num,
   (C10_record_writes_only_disable ⟨1, 2, 3, 10000001⟩ ⟨4, 5, 6, 20000000⟩
      (by norm_num) (by norm_num)).2.2.2.2⟩

end MapLooperFaust
